import Mathlib

/-
Verification of the OBE portal's attainment-computation core and data store.

The definitions below are shallow embeddings of the JavaScript source:
the attainment engine of `app.js` (calculateCourseOutcomeAchievement,
calculateProgramOutcomeAchievementForStudent, findLatestEnrolment and the
report renderers) and the `DataStore` of `server.js` (upsertMark, clone).
Record ids are modelled as `Nat`, JavaScript numbers as `ℚ`, and a mapping
weight that may be `undefined`/`NaN` as `Option ℚ` (with `none` for the
absent/NaN case, which is falsy in the JavaScript guards).
-/

namespace OBE

/-- An enrolment record: one student taking one course in one semester. -/
structure Enrolment where
  id : Nat
  studentId : Nat
  courseId : Nat
  semesterId : Nat
  deriving Repr, DecidableEq

/-- A student record (only the fields the engine reads). -/
structure Student where
  id : Nat
  programId : Nat
  deriving Repr, DecidableEq

/-- An assessment record (only the fields the engine reads). -/
structure Assessment where
  id : Nat
  courseId : Nat
  maxMarks : ℚ
  semesterId : Nat
  deriving Repr, DecidableEq

/-- A mark record; `marks` is the recorded score value. -/
structure Mark where
  id : Nat
  enrolmentId : Nat
  assessmentId : Nat
  marks : ℚ
  deriving Repr, DecidableEq

/-- A course outcome (only the fields the engine reads). -/
structure CourseOutcome where
  id : Nat
  courseId : Nat
  deriving Repr, DecidableEq

/-- A program outcome (only the fields the engine reads). -/
structure ProgramOutcome where
  id : Nat
  programId : Nat
  deriving Repr, DecidableEq

/-- An assessment-to-CO weight mapping; `weight := none` models an
absent or NaN weight field. -/
structure AssessmentCoMapping where
  id : Nat
  assessmentId : Nat
  courseOutcomeId : Nat
  weight : Option ℚ
  deriving Repr, DecidableEq

/-- A CO-to-PO weight mapping; `weight := none` models an absent or NaN
weight field. -/
structure CoPoMapping where
  id : Nat
  courseOutcomeId : Nat
  programOutcomeId : Nat
  weight : Option ℚ
  deriving Repr, DecidableEq

/-- The snapshot of the record collections the engine reads (`data` in
app.js). -/
structure Data where
  students : List Student
  enrolments : List Enrolment
  assessments : List Assessment
  marks : List Mark
  courseOutcomes : List CourseOutcome
  programOutcomes : List ProgramOutcome
  assessmentCoMappings : List AssessmentCoMapping
  coPoMappings : List CoPoMapping
  deriving Repr, DecidableEq

/-- `getAssessment` of app.js: first assessment with the given id, else null. -/
def getAssessment (d : Data) (id : Nat) : Option Assessment :=
  d.assessments.find? (fun a => a.id == id)

/-- `getCourseOutcome` of app.js. -/
def getCourseOutcome (d : Data) (id : Nat) : Option CourseOutcome :=
  d.courseOutcomes.find? (fun o => o.id == id)

/-- `getProgramOutcome` of app.js. -/
def getProgramOutcome (d : Data) (id : Nat) : Option ProgramOutcome :=
  d.programOutcomes.find? (fun o => o.id == id)

/-- The mark lookup `data.marks.find(entry => entry.enrolmentId === ... &&
entry.assessmentId === ...)` used by the CO calculator. -/
def findMark (d : Data) (enrolmentId assessmentId : Nat) : Option Mark :=
  d.marks.find? (fun entry => entry.enrolmentId == enrolmentId && entry.assessmentId == assessmentId)

/-- The CO-level weight multiplier of app.js line 1128:
`mapping.weight && mapping.weight > 0 ? mapping.weight / 100 : 1`.
`none` (absent/NaN) and non-positive weights are falsy or fail the guard,
giving multiplier 1. -/
def coMultiplier : Option ℚ → ℚ
  | some w => if 0 < w then w / 100 else 1
  | none => 1

/-- The PO-level nominal weight of app.js line 1164:
`mapping.weight && mapping.weight > 0 ? mapping.weight : 100`. -/
def poNominalWeight : Option ℚ → ℚ
  | some w => if 0 < w then w else 100
  | none => 100

/-- One iteration of the `relevantMappings.forEach` loop in
`calculateCourseOutcomeAchievement`: the accumulator is the pair
(totalWeightedMax, totalWeightedScore). -/
def coStep (d : Data) (enrolment : Enrolment) (acc : ℚ × ℚ) (mapping : AssessmentCoMapping) : ℚ × ℚ :=
  match getAssessment d mapping.assessmentId with
  | none => acc
  | some assessment =>
    if assessment.courseId ≠ enrolment.courseId then acc
    else
      let weight := coMultiplier mapping.weight
      let score :=
        match findMark d enrolment.id assessment.id with
        | some entry => entry.marks
        | none => 0
      (acc.1 + assessment.maxMarks * weight, acc.2 + score * weight)

/-- `calculateCourseOutcomeAchievement` of app.js (lines 1116-1137):
`null` is modelled as `none` (the NoData outcome). -/
def calculateCourseOutcomeAchievement (d : Data) (enrolment : Enrolment) (courseOutcomeId : Nat) : Option ℚ :=
  let relevantMappings := d.assessmentCoMappings.filter (fun m => m.courseOutcomeId == courseOutcomeId)
  if relevantMappings.length = 0 then none
  else
    let totals := relevantMappings.foldl (coStep d enrolment) (0, 0)
    if totals.1 = 0 then none
    else some (totals.2 / totals.1 * 100)

/-- Spec-side helper: a mapping survives the defensive cross-course filter
iff its assessment resolves and belongs to the enrolment's course. -/
def coMappingSurvives (d : Data) (enrolment : Enrolment) (m : AssessmentCoMapping) : Bool :=
  match getAssessment d m.assessmentId with
  | some a => a.courseId == enrolment.courseId
  | none => false

/-- Spec-side helper: a surviving mapping's contribution to `sumMax`. -/
def coMappingMax (d : Data) (m : AssessmentCoMapping) : ℚ :=
  match getAssessment d m.assessmentId with
  | some a => a.maxMarks * coMultiplier m.weight
  | none => 0

/-- Spec-side helper: a surviving mapping's contribution to `sumScore`
(the recorded mark value, or 0 when no mark is recorded). -/
def coMappingScore (d : Data) (enrolment : Enrolment) (m : AssessmentCoMapping) : ℚ :=
  match getAssessment d m.assessmentId with
  | some a =>
    (match findMark d enrolment.id a.id with
     | some entry => entry.marks
     | none => 0) * coMultiplier m.weight
  | none => 0

/-- The spec's formulation of `computeCoAttainment` (spec section 4.1):
collect the mappings for the CO (none configured means NoData), keep those
whose assessment resolves to the enrolment's course, form
`sumMax`/`sumScore` as sums over the surviving mappings, return NoData when
`sumMax = 0` and `(sumScore / sumMax) * 100` otherwise, unclamped. -/
def coAttainmentSpec (d : Data) (enrolment : Enrolment) (courseOutcomeId : Nat) : Option ℚ :=
  let relevant := d.assessmentCoMappings.filter (fun m => m.courseOutcomeId == courseOutcomeId)
  if relevant = [] then none
  else
    let surviving := relevant.filter (coMappingSurvives d enrolment)
    let sumMax := (surviving.map (coMappingMax d)).sum
    let sumScore := (surviving.map (coMappingScore d enrolment)).sum
    if sumMax = 0 then none
    else some (sumScore / sumMax * 100)

/-- The concrete scenario of claim C1: course 1 with assessments A1 (id 2)
and A2 (id 3), both max 50 and weight 50, mapped to CO 5; enrolment 1 has
mark 40 on A1 and no mark on A2. -/
def c1Data : Data :=
  { students := [{ id := 100, programId := 200 }]
    enrolments := [{ id := 1, studentId := 100, courseId := 1, semesterId := 300 }]
    assessments :=
      [{ id := 2, courseId := 1, maxMarks := 50, semesterId := 300 },
       { id := 3, courseId := 1, maxMarks := 50, semesterId := 300 }]
    marks := [{ id := 20, enrolmentId := 1, assessmentId := 2, marks := 40 }]
    courseOutcomes := [{ id := 5, courseId := 1 }]
    programOutcomes := []
    assessmentCoMappings :=
      [{ id := 10, assessmentId := 2, courseOutcomeId := 5, weight := some 50 },
       { id := 11, assessmentId := 3, courseOutcomeId := 5, weight := some 50 }]
    coPoMappings := [] }

/-- The enrolment of the C1 scenario. -/
def c1Enrolment : Enrolment := { id := 1, studentId := 100, courseId := 1, semesterId := 300 }

/-- The semester filter of the PO calculator:
`!semesterId || enrolment.semesterId === semesterId`. -/
def enrolmentMatchesSemester (semesterId : Option Nat) (e : Enrolment) : Bool :=
  match semesterId with
  | none => true
  | some s => e.semesterId == s

/-- The enrolment collection step of the PO calculator (app.js line 1144):
the student's enrolments, optionally restricted to one semester. -/
def studentEnrolments (d : Data) (studentId : Nat) (semesterId : Option Nat) : List Enrolment :=
  d.enrolments.filter (fun e => e.studentId == studentId && enrolmentMatchesSemester semesterId e)

/-- One iteration of the `relevantMappings.forEach` loop in
`calculateProgramOutcomeAchievementForStudent`: the accumulator is the pair
(totalWeight, weightedSum). -/
def poStep (d : Data) (enrolments : List Enrolment) (acc : ℚ × ℚ) (mapping : CoPoMapping) : ℚ × ℚ :=
  match getCourseOutcome d mapping.courseOutcomeId with
  | none => acc
  | some courseOutcome =>
    let enrolmentsForCourse := enrolments.filter (fun e => e.courseId == courseOutcome.courseId)
    if enrolmentsForCourse.length = 0 then acc
    else
      let attainments := enrolmentsForCourse.filterMap
        (fun e => calculateCourseOutcomeAchievement d e courseOutcome.id)
      if attainments.length = 0 then acc
      else
        let average := attainments.foldl (· + ·) 0 / (attainments.length : ℚ)
        let weight := poNominalWeight mapping.weight
        (acc.1 + weight, acc.2 + average * weight)

/-- `calculateProgramOutcomeAchievementForStudent` of app.js (lines
1139-1172); the options object `{ semesterId = null }` is modelled as an
`Option Nat` argument and `null` results as `none`. -/
def calculateProgramOutcomeAchievementForStudent (d : Data) (studentId programOutcomeId : Nat) (semesterId : Option Nat) : Option ℚ :=
  match getProgramOutcome d programOutcomeId with
  | none => none
  | some _ =>
    let enrolments := studentEnrolments d studentId semesterId
    if enrolments.length = 0 then none
    else
      let relevantMappings := d.coPoMappings.filter (fun m => m.programOutcomeId == programOutcomeId)
      if relevantMappings.length = 0 then none
      else
        let totals := relevantMappings.foldl (poStep d enrolments) (0, 0)
        if totals.1 = 0 then none
        else some (totals.2 / totals.1)

/-- Spec-side helper (spec section 4.3, steps 3-5): a CO-to-PO mapping's
contribution (weight, mean CO attainment times weight), or `none` when the
mapping is skipped entirely: its CO does not resolve, no enrolment matches
the CO's course, or every per-enrolment CO attainment is NoData. -/
def poContribution (d : Data) (enrolments : List Enrolment) (m : CoPoMapping) : Option (ℚ × ℚ) :=
  match getCourseOutcome d m.courseOutcomeId with
  | none => none
  | some co =>
    let matching := enrolments.filter (fun e => e.courseId == co.courseId)
    if matching = [] then none
    else
      let attainments := matching.filterMap (fun e => calculateCourseOutcomeAchievement d e co.id)
      if attainments = [] then none
      else
        let w := poNominalWeight m.weight
        some (w, attainments.sum / (attainments.length : ℚ) * w)

/-- The spec's formulation of `computePoAttainmentForStudent` (spec section
4.3): NoData when the student has no (filtered) enrolments or no CO-to-PO
mapping targets the PO; otherwise the skipped-mapping-aware weighted mean
`weightedSum / totalWeight`, NoData when `totalWeight = 0`. -/
def poAttainmentSpec (d : Data) (studentId programOutcomeId : Nat) (semesterId : Option Nat) : Option ℚ :=
  let enrolments := studentEnrolments d studentId semesterId
  if enrolments = [] then none
  else
    let mappings := d.coPoMappings.filter (fun m => m.programOutcomeId == programOutcomeId)
    if mappings = [] then none
    else
      let contribs := mappings.filterMap (poContribution d enrolments)
      let totalWeight := (contribs.map Prod.fst).sum
      let weightedSum := (contribs.map Prod.snd).sum
      if totalWeight = 0 then none
      else some (weightedSum / totalWeight)

/-- The concrete scenario of claim C2: PO 10 mapped to CO 20 (weight 100,
attainment 80 via a 40/50 mark) and CO 21 (weight 0, no assessment mapping,
hence NoData). -/
def c2Data : Data :=
  { students := [{ id := 1, programId := 50 }]
    enrolments := [{ id := 2, studentId := 1, courseId := 3, semesterId := 60 }]
    assessments := [{ id := 4, courseId := 3, maxMarks := 50, semesterId := 60 }]
    marks := [{ id := 5, enrolmentId := 2, assessmentId := 4, marks := 40 }]
    courseOutcomes := [{ id := 20, courseId := 3 }, { id := 21, courseId := 3 }]
    programOutcomes := [{ id := 10, programId := 50 }]
    assessmentCoMappings := [{ id := 6, assessmentId := 4, courseOutcomeId := 20, weight := some 100 }]
    coPoMappings :=
      [{ id := 7, courseOutcomeId := 20, programOutcomeId := 10, weight := some 100 },
       { id := 8, courseOutcomeId := 21, programOutcomeId := 10, weight := some 0 }] }

/-- The counterexample snapshot for claim C3: CO 5 has one assessment-to-CO
mapping, but the mapping's assessment id 9 does not resolve, so the CO
attainment is NoData even though a mapping exists and no marks are
recorded. -/
def c3Data : Data :=
  { students := []
    enrolments := [{ id := 1, studentId := 1, courseId := 1, semesterId := 1 }]
    assessments := []
    marks := []
    courseOutcomes := [{ id := 5, courseId := 1 }]
    programOutcomes := []
    assessmentCoMappings := [{ id := 1, assessmentId := 9, courseOutcomeId := 5, weight := some 50 }]
    coPoMappings := [] }

/-- The enrolment of the C3 counterexample snapshot. -/
def c3Enrolment : Enrolment := { id := 1, studentId := 1, courseId := 1, semesterId := 1 }

/-- The witness snapshot for the amended claim C3: the C1 scenario with no
marks recorded at all. -/
def c3wData : Data :=
  { c1Data with marks := [] }

/-- Replace every assessment-to-CO mapping's weight by `f` of the mapping
(used to compare otherwise identical snapshots in claim C4). -/
def mapCoWeights (d : Data) (f : AssessmentCoMapping → Option ℚ) : Data :=
  { d with assessmentCoMappings := d.assessmentCoMappings.map (fun m => { m with weight := f m }) }

/-- Replace every CO-to-PO mapping's weight by `g` of the mapping. -/
def mapPoWeights (d : Data) (g : CoPoMapping → Option ℚ) : Data :=
  { d with coPoMappings := d.coPoMappings.map (fun m => { m with weight := g m }) }

/-- A weight value that the engine defaults to full weight: absent or NaN
(`none`) or non-positive. -/
def defaultsToFull : Option ℚ → Prop
  | none => True
  | some v => v ≤ 0

/-- `findLatestEnrolment` of app.js (lines 1192-1198): the element at index
`length - 1` of the student-and-course filtered enrolment list, `null` when
the list is empty. -/
def findLatestEnrolment (d : Data) (studentId courseId : Nat) : Option Enrolment :=
  let enrolments := d.enrolments.filter (fun e => e.studentId == studentId && e.courseId == courseId)
  if enrolments.length = 0 then none
  else enrolments[enrolments.length - 1]?

/-- The per-PO value of the semester PO report
(`renderPoAchievementForSemester`, app.js lines 1064-1074): per-student PO
attainments with the semester filter, `null` results dropped, then the
running-sum average; the NoData row is modelled as `none`. -/
def poSemesterValue (d : Data) (programId semesterId poId : Nat) : Option ℚ :=
  let students := d.students.filter (fun s => s.programId == programId)
  let attainments := students.filterMap
    (fun s => calculateProgramOutcomeAchievementForStudent d s.id poId (some semesterId))
  if attainments.length = 0 then none
  else some (attainments.foldl (· + ·) 0 / (attainments.length : ℚ))

/-- Spec-side helper for claim C6: the arithmetic mean over exactly the
present (non-NoData) values, NoData when none are present. -/
def meanOfPresent (vals : List (Option ℚ)) : Option ℚ :=
  let present := vals.filterMap id
  if present = [] then none
  else some (present.sum / (present.length : ℚ))

/-- The status classification of the per-student CO report (app.js line
984): `attainment >= 60 ? 'Achieved' : 'Needs Attention'`. -/
def coStudentStatus (attainment : ℚ) : String :=
  if attainment ≥ 60 then "Achieved" else "Needs Attention"

/-- The status classification of the per-semester CO report (app.js line
1015). -/
def coSemesterStatus (average : ℚ) : String :=
  if average ≥ 60 then "Achieved" else "Needs Attention"

/-- The status classification of the per-student PO report (app.js line
1046). -/
def poStudentStatus (attainment : ℚ) : String :=
  if attainment ≥ 60 then "Achieved" else "Needs Attention"

/-- The status classification of the per-semester PO report (app.js line
1073). -/
def poSemesterStatus (average : ℚ) : String :=
  if average ≥ 60 then "Achieved" else "Needs Attention"

/-- The snapshot for the C5 witness: student 1 is enrolled twice in course
1, with enrolment 31 inserted before enrolment 32. -/
def c5Data : Data :=
  { students := [{ id := 1, programId := 1 }]
    enrolments :=
      [{ id := 31, studentId := 1, courseId := 1, semesterId := 1 },
       { id := 32, studentId := 1, courseId := 1, semesterId := 2 }]
    assessments := []
    marks := []
    courseOutcomes := []
    programOutcomes := []
    assessmentCoMappings := []
    coPoMappings := [] }

/-- The later (last-inserted) enrolment of the C5 witness snapshot. -/
def c5Enrolment2 : Enrolment := { id := 32, studentId := 1, courseId := 1, semesterId := 2 }

/-- The concrete scenario of claim C6: program 1, semester 2, PO 3; student
10 has no enrolments (PO attainment NoData) and student 11 attains 70. -/
def c6Data : Data :=
  { students := [{ id := 10, programId := 1 }, { id := 11, programId := 1 }]
    enrolments := [{ id := 12, studentId := 11, courseId := 13, semesterId := 2 }]
    assessments := [{ id := 16, courseId := 13, maxMarks := 100, semesterId := 2 }]
    marks := [{ id := 18, enrolmentId := 12, assessmentId := 16, marks := 70 }]
    courseOutcomes := [{ id := 14, courseId := 13 }]
    programOutcomes := [{ id := 3, programId := 1 }]
    assessmentCoMappings := [{ id := 17, assessmentId := 16, courseOutcomeId := 14, weight := none }]
    coPoMappings := [{ id := 15, courseOutcomeId := 14, programOutcomeId := 3, weight := some 100 }] }

/-- The slice of `DataStore.data` (server.js) that `upsertMark` reads and
writes. -/
structure Store where
  enrolments : List Enrolment
  assessments : List Assessment
  marks : List Mark
  deriving Repr, DecidableEq

/-- The request payload of `upsertMark`; `none` models an absent field (or,
for `marks`, a value whose `Number(...)` coercion is NaN). -/
structure MarkPayload where
  enrolmentId : Option Nat
  assessmentId : Option Nat
  marks : Option ℚ
  deriving Repr, DecidableEq

/-- The in-place mutation `entry.marks = marks` of the first matching entry
found by `this.data.marks.find(...)`: every other element is untouched. -/
def updateFirstMark (enrolmentId assessmentId : Nat) (v : ℚ) : List Mark → List Mark
  | [] => []
  | entry :: rest =>
    if entry.enrolmentId == enrolmentId && entry.assessmentId == assessmentId then
      { entry with marks := v } :: rest
    else entry :: updateFirstMark enrolmentId assessmentId v rest

/-- `DataStore.upsertMark` of server.js (lines 358-390): validation errors
are modelled as `Except.error` with the source's messages, a successful
call returns the new store state, the returned entry, and the `created`
flag; `generateId()` is modelled by the `newId` parameter. -/
def upsertMark (s : Store) (payload : MarkPayload) (newId : Nat) : Except String (Store × Mark × Bool) :=
  match payload.enrolmentId, payload.assessmentId, payload.marks with
  | some enrolmentId, some assessmentId, some marks =>
    if (s.enrolments.find? (fun e => e.id == enrolmentId)).isNone then
      Except.error "Referenced enrolment does not exist."
    else if (s.assessments.find? (fun a => a.id == assessmentId)).isNone then
      Except.error "Referenced assessment does not exist."
    else
      match s.marks.find? (fun entry => entry.enrolmentId == enrolmentId && entry.assessmentId == assessmentId) with
      | some entry =>
        Except.ok ({ s with marks := updateFirstMark enrolmentId assessmentId marks s.marks },
          { entry with marks := marks }, false)
      | none =>
        Except.ok ({ s with marks := s.marks ++ [{ id := newId, enrolmentId := enrolmentId, assessmentId := assessmentId, marks := marks }] },
          { id := newId, enrolmentId := enrolmentId, assessmentId := assessmentId, marks := marks }, true)
  | _, _, _ => Except.error "Enrolment, assessment and marks are required."

/-- The upsert key of a mark entry. -/
def markKey (m : Mark) : Nat × Nat := (m.enrolmentId, m.assessmentId)

/-- The marks-collection invariant: at most one entry per
(enrolmentId, assessmentId) pair. -/
def marksUniquePerPair (ms : List Mark) : Prop := (ms.map markKey).Nodup

/-- The store of the C9 witness: one enrolment, one assessment, no marks. -/
def c9Store : Store :=
  { enrolments := [{ id := 1, studentId := 1, courseId := 1, semesterId := 1 }]
    assessments := [{ id := 2, courseId := 1, maxMarks := 10, semesterId := 1 }]
    marks := [] }

/-- The mark entry created by the C9 witness call. -/
def c9Entry : Mark := { id := 5, enrolmentId := 1, assessmentId := 2, marks := 7 }

/-- The store state after the C9 witness call. -/
def c9StoreAfter : Store := { c9Store with marks := [c9Entry] }

/-- A JSON value: the serializable content of a JavaScript object graph,
as produced by `JSON.stringify` and consumed by `JSON.parse`. -/
inductive JVal where
  | num (q : ℚ)
  | str (s : String)
  | bool (b : Bool)
  | null
  | arr (elems : List JVal)
  | obj (fields : List (String × JVal))

/-- One node of the JavaScript object heap: a primitive, or an array or
object holding the heap addresses of its components. The heap itself is a
`List HNode` addressed by position; `DataStore.data` is one address into
this heap. -/
inductive HNode where
  | num (q : ℚ)
  | str (s : String)
  | bool (b : Bool)
  | null
  | arr (elems : List Nat)
  | obj (fields : List (String × Nat))
  deriving Repr, DecidableEq

mutual

/-- Checks that `JSON.stringify` of heap address `a` yields exactly the
JSON value `j` (cycles or missing addresses fail the check, as stringify
throws on them). -/
def reprOfAddr (h : List HNode) (a : Nat) : JVal → Bool
  | JVal.num q => h[a]? == some (HNode.num q)
  | JVal.str s => h[a]? == some (HNode.str s)
  | JVal.bool b => h[a]? == some (HNode.bool b)
  | JVal.null => h[a]? == some HNode.null
  | JVal.arr js =>
    match h[a]? with
    | some (HNode.arr elems) => reprOfAddrList h elems js
    | _ => false
  | JVal.obj jfs =>
    match h[a]? with
    | some (HNode.obj fields) => reprOfAddrFields h fields jfs
    | _ => false

/-- Elementwise `reprOfAddr` over the addresses of an array node. -/
def reprOfAddrList (h : List HNode) : List Nat → List JVal → Bool
  | [], [] => true
  | a :: as, j :: js => reprOfAddr h a j && reprOfAddrList h as js
  | _, _ => false

/-- Fieldwise `reprOfAddr` over the fields of an object node. -/
def reprOfAddrFields (h : List HNode) : List (String × Nat) → List (String × JVal) → Bool
  | [], [] => true
  | (k, a) :: fs, (k', j) :: jfs => k == k' && reprOfAddr h a j && reprOfAddrFields h fs jfs
  | _, _ => false

end

mutual

/-- `JSON.parse` of the serialized value `j`: allocates a fresh node graph
at the end of the heap and returns the extended heap with the address of
the new root. `clone(value) = JSON.parse(JSON.stringify(value))` of
server.js is then modelled by `cloneVal h j` for the `j` with
`reprOfAddr h a j = true`, where `a` is the address of the stored value. -/
def cloneVal (h : List HNode) : JVal → List HNode × Nat
  | JVal.num q => (h ++ [HNode.num q], h.length)
  | JVal.str s => (h ++ [HNode.str s], h.length)
  | JVal.bool b => (h ++ [HNode.bool b], h.length)
  | JVal.null => (h ++ [HNode.null], h.length)
  | JVal.arr js =>
    let r := cloneList h js
    (r.1 ++ [HNode.arr r.2], r.1.length)
  | JVal.obj jfs =>
    let r := cloneFields h jfs
    (r.1 ++ [HNode.obj r.2], r.1.length)

/-- Allocates the elements of an array value left to right. -/
def cloneList (h : List HNode) : List JVal → List HNode × List Nat
  | [] => (h, [])
  | j :: js =>
    let r := cloneVal h j
    let r' := cloneList r.1 js
    (r'.1, r.2 :: r'.2)

/-- Allocates the fields of an object value left to right. -/
def cloneFields (h : List HNode) : List (String × JVal) → List HNode × List (String × Nat)
  | [] => (h, [])
  | kj :: jfs =>
    let r := cloneVal h kj.2
    let r' := cloneFields r.1 jfs
    (r'.1, (kj.1, r.2) :: r'.2)

end

/-- The heap of the C10 witness: the store's data is the single boolean
node at address 0. -/
def c10Heap : List HNode := [HNode.bool true]

theorem coStep_eq (d : Data) (e : Enrolment) (acc : ℚ × ℚ) (m : AssessmentCoMapping) :
    coStep d e acc m =
      if coMappingSurvives d e m then (acc.1 + coMappingMax d m, acc.2 + coMappingScore d e m)
      else acc := by
  unfold coStep coMappingSurvives coMappingMax coMappingScore
  cases h : getAssessment d m.assessmentId with
  | none => simp
  | some a =>
    by_cases hc : a.courseId = e.courseId
    · simp [hc]
    · simp [hc]

theorem coStep_foldl (d : Data) (e : Enrolment) (ms : List AssessmentCoMapping) (a b : ℚ) :
    ms.foldl (coStep d e) (a, b) =
      (a + ((ms.filter (coMappingSurvives d e)).map (coMappingMax d)).sum,
       b + ((ms.filter (coMappingSurvives d e)).map (coMappingScore d e)).sum) := by
  induction ms generalizing a b with
  | nil => simp
  | cons m ms ih =>
    rw [List.foldl_cons, coStep_eq, List.filter_cons]
    by_cases h : coMappingSurvives d e m = true
    · rw [if_pos h, if_pos h]
      simp only [List.map_cons, List.sum_cons, ih, Prod.mk.injEq]
      constructor <;> ring
    · rw [if_neg h, if_neg h, ih]

/-- The source CO calculator agrees with the spec formulation on every
snapshot, enrolment and CO id. -/
theorem coAttainment_eq_spec (d : Data) (e : Enrolment) (c : Nat) :
    calculateCourseOutcomeAchievement d e c = coAttainmentSpec d e c := by
  unfold calculateCourseOutcomeAchievement coAttainmentSpec
  simp only [List.length_eq_zero, coStep_foldl, zero_add]

/-- C1: `computeCoAttainment` returns NoData when no mapping targets the CO;
otherwise, over the mappings whose assessment resolves to the enrolment's
course, it accumulates `sumMax` and `sumScore` with the weight/100 (or 1)
multiplier, a missing mark scoring 0, returns NoData when `sumMax = 0` and
the unclamped percentage `(sumScore / sumMax) * 100` otherwise; on the
concrete scenario (CO 5 mapped to A1 and A2, max 50 and weight 50 each,
mark 40 on A1 only) the result is exactly 40. -/
theorem co_attainment_formula :
    (∀ (d : Data) (e : Enrolment) (c : Nat),
      calculateCourseOutcomeAchievement d e c = coAttainmentSpec d e c) ∧
    calculateCourseOutcomeAchievement c1Data c1Enrolment 5 = some 40 := by
  refine ⟨coAttainment_eq_spec, ?_⟩
  simp [calculateCourseOutcomeAchievement, c1Data, c1Enrolment, coStep, getAssessment,
    findMark, coMultiplier, List.filter, List.foldl, List.find?]
  norm_num

theorem foldl_add_eq_sum (l : List ℚ) (c : ℚ) : l.foldl (· + ·) c = c + l.sum := by
  induction l generalizing c with
  | nil => simp
  | cons x xs ih => rw [List.foldl_cons, List.sum_cons, ih, add_assoc]

theorem poStep_eq (d : Data) (es : List Enrolment) (acc : ℚ × ℚ) (m : CoPoMapping) :
    poStep d es acc m =
      match poContribution d es m with
      | none => acc
      | some c => (acc.1 + c.1, acc.2 + c.2) := by
  unfold poStep poContribution
  cases getCourseOutcome d m.courseOutcomeId with
  | none => rfl
  | some co =>
    simp only [List.length_eq_zero, foldl_add_eq_sum, zero_add]
    by_cases h1 : es.filter (fun e => e.courseId == co.courseId) = []
    · simp [h1]
    · simp only [h1, if_false]
      by_cases h2 : (es.filter (fun e => e.courseId == co.courseId)).filterMap
          (fun e => calculateCourseOutcomeAchievement d e co.id) = []
      · simp [h2]
      · simp [h1, h2]

theorem poStep_foldl (d : Data) (es : List Enrolment) (ms : List CoPoMapping) (a b : ℚ) :
    ms.foldl (poStep d es) (a, b) =
      (a + ((ms.filterMap (poContribution d es)).map Prod.fst).sum,
       b + ((ms.filterMap (poContribution d es)).map Prod.snd).sum) := by
  induction ms generalizing a b with
  | nil => simp
  | cons m ms ih =>
    rw [List.foldl_cons, poStep_eq, List.filterMap_cons]
    cases h : poContribution d es m with
    | none => simp only [ih]
    | some c =>
      simp only [List.map_cons, List.sum_cons, ih, Prod.mk.injEq]
      constructor <;> ring

/-- The source PO calculator agrees with the spec formulation whenever the
given program-outcome id resolves (the engine may assume top-level ids
resolve, spec section 7). -/
theorem poAttainment_eq_spec (d : Data) (sid poId : Nat) (sem : Option Nat)
    (hpo : (getProgramOutcome d poId).isSome) :
    calculateProgramOutcomeAchievementForStudent d sid poId sem = poAttainmentSpec d sid poId sem := by
  unfold calculateProgramOutcomeAchievementForStudent poAttainmentSpec
  cases h : getProgramOutcome d poId with
  | none => rw [h] at hpo; simp at hpo
  | some po =>
    simp only [List.length_eq_zero, poStep_foldl, zero_add]

/-- C2: `computePoAttainmentForStudent` returns NoData when the student has
no (filtered) enrolments or no CO-to-PO mapping targets the PO; otherwise
each mapping whose CO resolves, whose course matches some enrolment, and
whose per-enrolment CO attainments are not all NoData contributes
(weight if positive else 100) to `totalWeight` and mean attainment times
that weight to `weightedSum`; skipped mappings contribute nothing, the
result is NoData when `totalWeight = 0` and `weightedSum / totalWeight`
otherwise; on the concrete scenario (PO 10 mapped to CO 20 with weight 100
and attainment 80, and CO 21 with weight 0 and attainment NoData) the
result is exactly 80. -/
theorem po_attainment_formula :
    (∀ (d : Data) (sid poId : Nat) (sem : Option Nat),
      (getProgramOutcome d poId).isSome →
      calculateProgramOutcomeAchievementForStudent d sid poId sem = poAttainmentSpec d sid poId sem) ∧
    calculateProgramOutcomeAchievementForStudent c2Data 1 10 none = some 80 := by
  refine ⟨poAttainment_eq_spec, ?_⟩
  simp [calculateProgramOutcomeAchievementForStudent, c2Data, getProgramOutcome, getCourseOutcome,
    studentEnrolments, enrolmentMatchesSemester, poStep, poNominalWeight,
    calculateCourseOutcomeAchievement, coStep, getAssessment, findMark, coMultiplier,
    List.filter, List.foldl, List.find?, List.filterMap]
  norm_num

/-- Witness for C2: the program-outcome id of the concrete scenario
resolves, and the source calculator agrees with the spec formulation
there. -/
theorem po_attainment_formula_witness :
    (getProgramOutcome c2Data 10).isSome ∧
    calculateProgramOutcomeAchievementForStudent c2Data 1 10 none = poAttainmentSpec c2Data 1 10 none := by
  refine ⟨?_, po_attainment_formula.1 c2Data 1 10 none ?_⟩ <;>
    simp [getProgramOutcome, c2Data, List.find?]

/-- C3 counterexample: a snapshot in which CO 5 has an assessment-to-CO
mapping (to the unresolvable assessment id 9), the enrolment has no
recorded marks, and yet the CO attainment is the NoData outcome rather
than the percentage 0. -/
theorem no_marks_claim_counterexample :
    c3Data.marks = [] ∧
    c3Data.assessmentCoMappings.filter (fun m => m.courseOutcomeId == 5) ≠ [] ∧
    calculateCourseOutcomeAchievement c3Data c3Enrolment 5 = none := by
  refine ⟨rfl, ?_, ?_⟩ <;>
    simp [c3Data, c3Enrolment, calculateCourseOutcomeAchievement, coStep, getAssessment,
      List.filter, List.foldl, List.find?]

/-- C3 (amended): for every enrolment with no recorded marks and every CO
id whose mappings yield a positive weighted max total (in particular at
least one mapping resolves to an assessment of the enrolment's course),
the CO attainment is the computed percentage 0, not NoData. -/
theorem no_marks_zero_attainment (d : Data) (e : Enrolment) (c : Nat)
    (hmarks : ∀ m ∈ d.marks, m.enrolmentId ≠ e.id)
    (hmax : 0 < (((d.assessmentCoMappings.filter (fun m => m.courseOutcomeId == c)).filter
        (coMappingSurvives d e)).map (coMappingMax d)).sum) :
    calculateCourseOutcomeAchievement d e c = some 0 := by
  rw [coAttainment_eq_spec]
  unfold coAttainmentSpec
  have hne : d.assessmentCoMappings.filter (fun m => m.courseOutcomeId == c) ≠ [] := by
    intro h
    rw [h] at hmax
    simp at hmax
  have hscore : ∀ m ∈ (d.assessmentCoMappings.filter (fun m => m.courseOutcomeId == c)).filter
      (coMappingSurvives d e), coMappingScore d e m = 0 := by
    intro m _
    unfold coMappingScore
    cases h : getAssessment d m.assessmentId with
    | none => rfl
    | some a =>
      have hfind : findMark d e.id a.id = none := by
        unfold findMark
        rw [List.find?_eq_none]
        intro entry hentry
        simp only [Bool.and_eq_true, beq_iff_eq, not_and]
        intro heq
        exact absurd heq (hmarks entry hentry)
      simp [hfind]
  have hsum : (((d.assessmentCoMappings.filter (fun m => m.courseOutcomeId == c)).filter
      (coMappingSurvives d e)).map (coMappingScore d e)).sum = 0 := by
    apply List.sum_eq_zero
    intro x hx
    obtain ⟨m, hm, rfl⟩ := List.mem_map.mp hx
    exact hscore m hm
  simp only [hne, if_false, hsum]
  rw [if_neg (by positivity)]
  rw [zero_div, zero_mul]

/-- Witness for the amended claim C3: the C1 scenario with its marks
removed has a positive weighted max total and computes a CO attainment of
exactly 0. -/
theorem no_marks_zero_attainment_witness :
    calculateCourseOutcomeAchievement c3wData c1Enrolment 5 = some 0 := by
  apply no_marks_zero_attainment
  · intro m hm
    simp [c3wData, c1Data] at hm
  · simp [c3wData, c1Data, c1Enrolment, coMappingSurvives, coMappingMax, getAssessment,
      coMultiplier, List.filter, List.find?]

theorem coStep_congr (d₁ d₂ : Data) (ha : d₁.assessments = d₂.assessments)
    (hm : d₁.marks = d₂.marks) (e : Enrolment) : coStep d₁ e = coStep d₂ e := by
  funext acc mapping
  unfold coStep getAssessment findMark
  rw [ha, hm]

theorem calcCO_congr (d₁ d₂ : Data) (ha : d₁.assessments = d₂.assessments)
    (hm : d₁.marks = d₂.marks) (hacm : d₁.assessmentCoMappings = d₂.assessmentCoMappings) :
    calculateCourseOutcomeAchievement d₁ = calculateCourseOutcomeAchievement d₂ := by
  funext e c
  unfold calculateCourseOutcomeAchievement
  rw [hacm, coStep_congr d₁ d₂ ha hm]

theorem coStep_weight_invariant (d : Data) (e : Enrolment) (acc : ℚ × ℚ)
    (m : AssessmentCoMapping) (w w' : Option ℚ) (h : coMultiplier w = coMultiplier w') :
    coStep d e acc { m with weight := w } = coStep d e acc { m with weight := w' } := by
  cases m
  unfold coStep
  cases getAssessment d _ with
  | none => rfl
  | some a => simp [h]

theorem poStep_weight_invariant (d : Data) (es : List Enrolment) (acc : ℚ × ℚ)
    (m : CoPoMapping) (w w' : Option ℚ) (h : poNominalWeight w = poNominalWeight w') :
    poStep d es acc { m with weight := w } = poStep d es acc { m with weight := w' } := by
  cases m
  unfold poStep
  cases getCourseOutcome d _ with
  | none => rfl
  | some co => simp [h]

theorem coStep_mapCoWeights (d : Data) (f : AssessmentCoMapping → Option ℚ) (e : Enrolment) :
    coStep (mapCoWeights d f) e = coStep d e :=
  coStep_congr _ _ rfl rfl e

theorem assessmentCoMappings_mapCoWeights (d : Data) (f : AssessmentCoMapping → Option ℚ) :
    (mapCoWeights d f).assessmentCoMappings =
      d.assessmentCoMappings.map (fun m => { m with weight := f m }) := rfl

theorem calcCO_mapCoWeights_congr (d : Data) (e : Enrolment) (c : Nat)
    (f g : AssessmentCoMapping → Option ℚ)
    (h : ∀ m, coMultiplier (f m) = coMultiplier (g m)) :
    calculateCourseOutcomeAchievement (mapCoWeights d f) e c =
      calculateCourseOutcomeAchievement (mapCoWeights d g) e c := by
  unfold calculateCourseOutcomeAchievement
  simp only [coStep_mapCoWeights, assessmentCoMappings_mapCoWeights, List.filter_map,
    Function.comp_def, List.length_map, List.foldl_map]
  have hfun : (fun (acc : ℚ × ℚ) (m : AssessmentCoMapping) => coStep d e acc { m with weight := f m }) =
      (fun (acc : ℚ × ℚ) (m : AssessmentCoMapping) => coStep d e acc { m with weight := g m }) := by
    funext acc m
    exact coStep_weight_invariant d e acc m (f m) (g m) (h m)
  rw [hfun]

theorem poStep_congr (d₁ d₂ : Data) (hco : d₁.courseOutcomes = d₂.courseOutcomes)
    (ha : d₁.assessments = d₂.assessments) (hm : d₁.marks = d₂.marks)
    (hacm : d₁.assessmentCoMappings = d₂.assessmentCoMappings) (es : List Enrolment) :
    poStep d₁ es = poStep d₂ es := by
  funext acc mapping
  unfold poStep getCourseOutcome
  rw [hco, calcCO_congr d₁ d₂ ha hm hacm]

theorem poStep_mapPoWeights (d : Data) (g : CoPoMapping → Option ℚ) (es : List Enrolment) :
    poStep (mapPoWeights d g) es = poStep d es :=
  poStep_congr _ _ rfl rfl rfl rfl es

theorem coPoMappings_mapPoWeights (d : Data) (g : CoPoMapping → Option ℚ) :
    (mapPoWeights d g).coPoMappings = d.coPoMappings.map (fun m => { m with weight := g m }) := rfl

theorem getProgramOutcome_mapPoWeights (d : Data) (g : CoPoMapping → Option ℚ) (i : Nat) :
    getProgramOutcome (mapPoWeights d g) i = getProgramOutcome d i := rfl

theorem studentEnrolments_mapPoWeights (d : Data) (g : CoPoMapping → Option ℚ) (sid : Nat)
    (sem : Option Nat) : studentEnrolments (mapPoWeights d g) sid sem = studentEnrolments d sid sem := rfl

theorem calcPO_mapPoWeights_congr (d : Data) (sid poId : Nat) (sem : Option Nat)
    (f g : CoPoMapping → Option ℚ)
    (h : ∀ m, poNominalWeight (f m) = poNominalWeight (g m)) :
    calculateProgramOutcomeAchievementForStudent (mapPoWeights d f) sid poId sem =
      calculateProgramOutcomeAchievementForStudent (mapPoWeights d g) sid poId sem := by
  unfold calculateProgramOutcomeAchievementForStudent
  simp only [poStep_mapPoWeights, coPoMappings_mapPoWeights, getProgramOutcome_mapPoWeights,
    studentEnrolments_mapPoWeights, List.filter_map, Function.comp_def, List.length_map,
    List.foldl_map]
  have hfun : (fun (acc : ℚ × ℚ) (m : CoPoMapping) =>
        poStep d (studentEnrolments d sid sem) acc { m with weight := f m }) =
      (fun (acc : ℚ × ℚ) (m : CoPoMapping) =>
        poStep d (studentEnrolments d sid sem) acc { m with weight := g m }) := by
    funext acc m
    exact poStep_weight_invariant d (studentEnrolments d sid sem) acc m (f m) (g m) (h m)
  rw [hfun]

/-- C4: replacing every assessment-to-CO mapping weight by any weights the
engine defaults (0, absent/NaN, negative) yields the same CO attainment as
replacing them all by weight 100, and likewise for CO-to-PO mapping weights
in the per-student PO attainment. -/
theorem weight_defaulting_equivalence (d : Data) (e : Enrolment) (c : Nat)
    (sid poId : Nat) (sem : Option Nat)
    (f : AssessmentCoMapping → Option ℚ) (g : CoPoMapping → Option ℚ)
    (hf : ∀ m, defaultsToFull (f m)) (hg : ∀ m, defaultsToFull (g m)) :
    calculateCourseOutcomeAchievement (mapCoWeights d f) e c =
      calculateCourseOutcomeAchievement (mapCoWeights d (fun _ => some 100)) e c ∧
    calculateProgramOutcomeAchievementForStudent (mapPoWeights d g) sid poId sem =
      calculateProgramOutcomeAchievementForStudent (mapPoWeights d (fun _ => some 100)) sid poId sem := by
  constructor
  · apply calcCO_mapCoWeights_congr
    intro m
    have h100 : coMultiplier (some 100) = 1 := by norm_num [coMultiplier]
    rw [h100]
    cases hw : f m with
    | none => rfl
    | some v =>
      have hv : v ≤ 0 := by have := hf m; rw [hw] at this; exact this
      simp [coMultiplier, not_lt.mpr hv]
  · apply calcPO_mapPoWeights_congr
    intro m
    have h100 : poNominalWeight (some 100) = 100 := by norm_num [poNominalWeight]
    rw [h100]
    cases hw : g m with
    | none => rfl
    | some v =>
      have hv : v ≤ 0 := by have := hg m; rw [hw] at this; exact this
      simp [poNominalWeight, not_lt.mpr hv]

/-- Witness for C4: on the C1 scenario, all-zero assessment-to-CO weights
give the same CO attainment as all-100 weights, and all-absent CO-to-PO
weights give the same PO attainment as all-100 weights. -/
theorem weight_defaulting_equivalence_witness :
    calculateCourseOutcomeAchievement (mapCoWeights c1Data (fun _ => some 0)) c1Enrolment 5 =
      calculateCourseOutcomeAchievement (mapCoWeights c1Data (fun _ => some 100)) c1Enrolment 5 ∧
    calculateProgramOutcomeAchievementForStudent (mapPoWeights c1Data (fun _ => none)) 100 7 none =
      calculateProgramOutcomeAchievementForStudent (mapPoWeights c1Data (fun _ => some 100)) 100 7 none :=
  weight_defaulting_equivalence c1Data c1Enrolment 5 100 7 none (fun _ => some 0) (fun _ => none)
    (fun _ => le_refl 0) (fun _ => trivial)

/-- C5: when reporting one student's attainment for one course, the engine
selects the enrolment that appears last in the store's listing (insertion)
order among those matching the (student, course) pair: the index-based
selection of `findLatestEnrolment` equals `getLast?` of the filtered list,
and any selected enrolment is a stored enrolment of that student and
course. -/
theorem latest_enrolment_last_in_order (d : Data) (studentId courseId : Nat) :
    findLatestEnrolment d studentId courseId =
      (d.enrolments.filter (fun e => e.studentId == studentId && e.courseId == courseId)).getLast? ∧
    ∀ e, findLatestEnrolment d studentId courseId = some e →
      e ∈ d.enrolments ∧ e.studentId = studentId ∧ e.courseId = courseId := by
  have hmain : findLatestEnrolment d studentId courseId =
      (d.enrolments.filter (fun e => e.studentId == studentId && e.courseId == courseId)).getLast? := by
    unfold findLatestEnrolment
    by_cases h : (d.enrolments.filter (fun e => e.studentId == studentId && e.courseId == courseId)).length = 0
    · rw [if_pos h]
      rw [List.length_eq_zero] at h
      rw [h]
      rfl
    · rw [if_neg h, List.getLast?_eq_getElem?]
  refine ⟨hmain, ?_⟩
  intro e he
  rw [hmain] at he
  obtain ⟨l', hl'⟩ := List.getLast?_eq_some_iff.mp he
  have hmem : e ∈ d.enrolments.filter (fun x => x.studentId == studentId && x.courseId == courseId) := by
    rw [hl']
    simp
  rw [List.mem_filter] at hmem
  obtain ⟨hmem', hcond⟩ := hmem
  simp only [Bool.and_eq_true, beq_iff_eq] at hcond
  exact ⟨hmem', hcond.1, hcond.2⟩

/-- Witness for C5: in a snapshot where student 1 is enrolled twice in
course 1, the engine selects the last-inserted enrolment (id 32), which is
a stored enrolment of that student and course. -/
theorem latest_enrolment_last_in_order_witness :
    c5Enrolment2 ∈ c5Data.enrolments ∧ c5Enrolment2.studentId = 1 ∧ c5Enrolment2.courseId = 1 :=
  (latest_enrolment_last_in_order c5Data 1 1).2 c5Enrolment2
    (by simp [findLatestEnrolment, c5Data, c5Enrolment2, List.filter])

/-- C6: the per-PO value of the semester PO report is the arithmetic mean
of the per-student PO attainments (with the semester filter) over exactly
the students of the program whose result is not NoData, and NoData when
every student's result is NoData; on the concrete scenario (one student
NoData, one student 70) the reported value is exactly 70. -/
theorem semester_po_mean_of_present :
    (∀ (d : Data) (programId semesterId poId : Nat),
      poSemesterValue d programId semesterId poId =
        meanOfPresent ((d.students.filter (fun s => s.programId == programId)).map
          (fun s => calculateProgramOutcomeAchievementForStudent d s.id poId (some semesterId)))) ∧
    poSemesterValue c6Data 1 2 3 = some 70 := by
  constructor
  · intro d programId semesterId poId
    unfold poSemesterValue meanOfPresent
    rw [List.filterMap_map]
    simp only [Function.comp_def, Option.map_id_fun, id, List.length_eq_zero,
      foldl_add_eq_sum, zero_add]
  · simp [poSemesterValue, c6Data, calculateProgramOutcomeAchievementForStudent,
      getProgramOutcome, getCourseOutcome, studentEnrolments, enrolmentMatchesSemester, poStep,
      poNominalWeight, calculateCourseOutcomeAchievement, coStep, getAssessment, findMark,
      coMultiplier, List.filter, List.foldl, List.find?, List.filterMap]

/-- C7: in all four report views the status is computed by the same fixed
rule: Achieved exactly when the value is at least 60, Needs Attention
exactly when it is below 60; in particular 60.00 is Achieved and 59.99 is
Needs Attention. -/
theorem status_threshold_sixty :
    (∀ v : ℚ,
      (coStudentStatus v = "Achieved" ↔ 60 ≤ v) ∧
      (coStudentStatus v = "Needs Attention" ↔ v < 60) ∧
      coSemesterStatus v = coStudentStatus v ∧
      poStudentStatus v = coStudentStatus v ∧
      poSemesterStatus v = coStudentStatus v) ∧
    coStudentStatus 60 = "Achieved" ∧
    coStudentStatus (5999 / 100) = "Needs Attention" := by
  refine ⟨?_, ?_, ?_⟩
  · intro v
    unfold coStudentStatus coSemesterStatus poStudentStatus poSemesterStatus
    by_cases h : (60 : ℚ) ≤ v
    · simp [ge_iff_le, h, not_lt.mpr h]
    · simp [ge_iff_le, h, lt_of_not_le h]
  · norm_num [coStudentStatus]
  · norm_num [coStudentStatus]

theorem coHelpers_update_acm (d : Data) (l : List AssessmentCoMapping) (e : Enrolment) :
    coMappingSurvives { d with assessmentCoMappings := l } e = coMappingSurvives d e ∧
    coMappingMax { d with assessmentCoMappings := l } = coMappingMax d ∧
    coMappingScore { d with assessmentCoMappings := l } e = coMappingScore d e :=
  ⟨funext (fun _ => rfl), funext (fun _ => rfl), funext (fun _ => rfl)⟩

theorem dangling_co_mapping_invariant (d : Data) (e : Enrolment) (c : Nat)
    (m : AssessmentCoMapping) (ms₁ ms₂ : List AssessmentCoMapping)
    (hm : getAssessment d m.assessmentId = none) :
    calculateCourseOutcomeAchievement { d with assessmentCoMappings := ms₁ ++ m :: ms₂ } e c =
      calculateCourseOutcomeAchievement { d with assessmentCoMappings := ms₁ ++ ms₂ } e c := by
  rw [coAttainment_eq_spec, coAttainment_eq_spec]
  unfold coAttainmentSpec
  obtain ⟨hs₁, hm₁, hc₁⟩ := coHelpers_update_acm d (ms₁ ++ m :: ms₂) e
  obtain ⟨hs₂, hm₂, hc₂⟩ := coHelpers_update_acm d (ms₁ ++ ms₂) e
  rw [hs₁, hm₁, hc₁, hs₂, hm₂, hc₂]
  show (if (ms₁ ++ m :: ms₂).filter (fun x => x.courseOutcomeId == c) = [] then none else _) =
    (if (ms₁ ++ ms₂).filter (fun x => x.courseOutcomeId == c) = [] then none else _)
  have hsurvm : coMappingSurvives d e m = false := by
    unfold coMappingSurvives
    rw [hm]
  by_cases hp : (m.courseOutcomeId == c) = true
  · have hfa : (ms₁ ++ m :: ms₂).filter (fun x => x.courseOutcomeId == c) =
        ms₁.filter (fun x => x.courseOutcomeId == c) ++ m :: ms₂.filter (fun x => x.courseOutcomeId == c) := by
      rw [List.filter_append, List.filter_cons, if_pos hp]
    have hfb : (ms₁ ++ ms₂).filter (fun x => x.courseOutcomeId == c) =
        ms₁.filter (fun x => x.courseOutcomeId == c) ++ ms₂.filter (fun x => x.courseOutcomeId == c) := by
      rw [List.filter_append]
    have hsurvs : (ms₁.filter (fun x => x.courseOutcomeId == c) ++
          m :: ms₂.filter (fun x => x.courseOutcomeId == c)).filter (coMappingSurvives d e) =
        (ms₁.filter (fun x => x.courseOutcomeId == c) ++
          ms₂.filter (fun x => x.courseOutcomeId == c)).filter (coMappingSurvives d e) := by
      rw [List.filter_append, List.filter_append, List.filter_cons, hsurvm]
      simp
    rw [hfa, hfb]
    by_cases hB : ms₁.filter (fun x => x.courseOutcomeId == c) ++ ms₂.filter (fun x => x.courseOutcomeId == c) = []
    · obtain ⟨h1, h2⟩ := List.append_eq_nil.mp hB
      rw [if_pos hB, h1, h2]
      simp [hsurvm]
    · have hA : ms₁.filter (fun x => x.courseOutcomeId == c) ++
          m :: ms₂.filter (fun x => x.courseOutcomeId == c) ≠ [] := by
        simp
      rw [if_neg hA, if_neg hB, hsurvs]
  · have hpf : (m.courseOutcomeId == c) = false := Bool.not_eq_true _ ▸ Bool.eq_false_iff.mpr hp
    have hfa : (ms₁ ++ m :: ms₂).filter (fun x => x.courseOutcomeId == c) =
        (ms₁ ++ ms₂).filter (fun x => x.courseOutcomeId == c) := by
      rw [List.filter_append, List.filter_append, List.filter_cons, hpf]
      simp
    rw [hfa]

theorem poContribution_update_cpm (d : Data) (l : List CoPoMapping) (es : List Enrolment) :
    poContribution { d with coPoMappings := l } es = poContribution d es :=
  funext (fun _ => rfl)

theorem dangling_po_mapping_invariant (d : Data) (sid poId : Nat) (sem : Option Nat)
    (p : CoPoMapping) (ps₁ ps₂ : List CoPoMapping)
    (hp : getCourseOutcome d p.courseOutcomeId = none) :
    calculateProgramOutcomeAchievementForStudent { d with coPoMappings := ps₁ ++ p :: ps₂ } sid poId sem =
      calculateProgramOutcomeAchievementForStudent { d with coPoMappings := ps₁ ++ ps₂ } sid poId sem := by
  have hpo : ∀ (l : List CoPoMapping),
      getProgramOutcome { d with coPoMappings := l } poId = getProgramOutcome d poId := fun _ => rfl
  cases hres : getProgramOutcome d poId with
  | none =>
    unfold calculateProgramOutcomeAchievementForStudent
    simp only [hpo, hres]
  | some po =>
    rw [poAttainment_eq_spec _ _ _ _ (by rw [hpo, hres]; rfl),
      poAttainment_eq_spec _ _ _ _ (by rw [hpo, hres]; rfl)]
    unfold poAttainmentSpec
    have hse : ∀ (l : List CoPoMapping),
        studentEnrolments { d with coPoMappings := l } sid sem = studentEnrolments d sid sem :=
      fun _ => rfl
    simp only [hse, poContribution_update_cpm]
    show (if studentEnrolments d sid sem = [] then none
          else if (ps₁ ++ p :: ps₂).filter (fun x => x.programOutcomeId == poId) = [] then none else _) =
      (if studentEnrolments d sid sem = [] then none
          else if (ps₁ ++ ps₂).filter (fun x => x.programOutcomeId == poId) = [] then none else _)
    by_cases hen : studentEnrolments d sid sem = []
    · rw [if_pos hen, if_pos hen]
    · rw [if_neg hen, if_neg hen]
      have hcontrib : poContribution d (studentEnrolments d sid sem) p = none := by
        unfold poContribution
        rw [hp]
      by_cases hq : (p.programOutcomeId == poId) = true
      · have hfa : (ps₁ ++ p :: ps₂).filter (fun x => x.programOutcomeId == poId) =
            ps₁.filter (fun x => x.programOutcomeId == poId) ++
              p :: ps₂.filter (fun x => x.programOutcomeId == poId) := by
          rw [List.filter_append, List.filter_cons, if_pos hq]
        have hfb : (ps₁ ++ ps₂).filter (fun x => x.programOutcomeId == poId) =
            ps₁.filter (fun x => x.programOutcomeId == poId) ++
              ps₂.filter (fun x => x.programOutcomeId == poId) := by
          rw [List.filter_append]
        have hmaps : (ps₁.filter (fun x => x.programOutcomeId == poId) ++
              p :: ps₂.filter (fun x => x.programOutcomeId == poId)).filterMap
                (poContribution d (studentEnrolments d sid sem)) =
            (ps₁.filter (fun x => x.programOutcomeId == poId) ++
              ps₂.filter (fun x => x.programOutcomeId == poId)).filterMap
                (poContribution d (studentEnrolments d sid sem)) := by
          rw [List.filterMap_append, List.filterMap_append, List.filterMap_cons, hcontrib]
        rw [hfa, hfb]
        by_cases hB : ps₁.filter (fun x => x.programOutcomeId == poId) ++
            ps₂.filter (fun x => x.programOutcomeId == poId) = []
        · obtain ⟨h1, h2⟩ := List.append_eq_nil.mp hB
          rw [if_pos hB, h1, h2]
          simp [hcontrib]
        · have hA : ps₁.filter (fun x => x.programOutcomeId == poId) ++
              p :: ps₂.filter (fun x => x.programOutcomeId == poId) ≠ [] := by
            simp
          rw [if_neg hA, if_neg hB, hmaps]
      · have hqf : (p.programOutcomeId == poId) = false := Bool.not_eq_true _ ▸ Bool.eq_false_iff.mpr hq
        have hfa : (ps₁ ++ p :: ps₂).filter (fun x => x.programOutcomeId == poId) =
            (ps₁ ++ ps₂).filter (fun x => x.programOutcomeId == poId) := by
          rw [List.filter_append, List.filter_append, List.filter_cons, hqf]
          simp
        rw [hfa]

/-- C8: the attainment computations are total functions of the snapshot
(absence of data yields the `none` NoData value), and dangling references
contribute nothing: inserting an assessment-to-CO mapping whose assessment
does not resolve anywhere in the mapping list leaves the CO attainment
unchanged, and inserting a CO-to-PO mapping whose course outcome does not
resolve leaves the per-student PO attainment unchanged. -/
theorem dangling_references_contribute_nothing (d : Data) (e : Enrolment) (c : Nat)
    (sid poId : Nat) (sem : Option Nat)
    (m : AssessmentCoMapping) (ms₁ ms₂ : List AssessmentCoMapping)
    (p : CoPoMapping) (ps₁ ps₂ : List CoPoMapping)
    (hma : getAssessment d m.assessmentId = none)
    (hpc : getCourseOutcome d p.courseOutcomeId = none) :
    calculateCourseOutcomeAchievement { d with assessmentCoMappings := ms₁ ++ m :: ms₂ } e c =
      calculateCourseOutcomeAchievement { d with assessmentCoMappings := ms₁ ++ ms₂ } e c ∧
    calculateProgramOutcomeAchievementForStudent { d with coPoMappings := ps₁ ++ p :: ps₂ } sid poId sem =
      calculateProgramOutcomeAchievementForStudent { d with coPoMappings := ps₁ ++ ps₂ } sid poId sem :=
  ⟨dangling_co_mapping_invariant d e c m ms₁ ms₂ hma,
   dangling_po_mapping_invariant d sid poId sem p ps₁ ps₂ hpc⟩

/-- Witness for C8: on the C1 snapshot, inserting a mapping to the
unresolvable assessment id 99 and a mapping to the unresolvable CO id 99
changes neither attainment. -/
theorem dangling_references_contribute_nothing_witness :
    calculateCourseOutcomeAchievement
        { c1Data with assessmentCoMappings :=
            [] ++ { id := 90, assessmentId := 99, courseOutcomeId := 5, weight := some 10 } ::
              c1Data.assessmentCoMappings } c1Enrolment 5 =
      calculateCourseOutcomeAchievement
        { c1Data with assessmentCoMappings := [] ++ c1Data.assessmentCoMappings } c1Enrolment 5 ∧
    calculateProgramOutcomeAchievementForStudent
        { c1Data with coPoMappings :=
            [] ++ { id := 91, courseOutcomeId := 99, programOutcomeId := 7, weight := some 10 } :: [] }
        100 7 none =
      calculateProgramOutcomeAchievementForStudent
        { c1Data with coPoMappings := [] ++ [] } 100 7 none :=
  dangling_references_contribute_nothing c1Data c1Enrolment 5 100 7 none
    { id := 90, assessmentId := 99, courseOutcomeId := 5, weight := some 10 }
    [] c1Data.assessmentCoMappings
    { id := 91, courseOutcomeId := 99, programOutcomeId := 7, weight := some 10 }
    [] []
    (by simp [getAssessment, c1Data, List.find?])
    (by simp [getCourseOutcome, c1Data, List.find?])

theorem updateFirstMark_map_key (eid aid : Nat) (v : ℚ) (ms : List Mark) :
    (updateFirstMark eid aid v ms).map markKey = ms.map markKey := by
  induction ms with
  | nil => rfl
  | cons entry rest ih =>
    unfold updateFirstMark
    by_cases h : (entry.enrolmentId == eid && entry.assessmentId == aid) = true
    · rw [if_pos h]
      simp [markKey]
    · rw [if_neg h]
      simp [ih]

theorem updateFirstMark_find? (eid aid : Nat) (v : ℚ) (ms : List Mark) (entry : Mark)
    (h : ms.find? (fun x => x.enrolmentId == eid && x.assessmentId == aid) = some entry) :
    (updateFirstMark eid aid v ms).find? (fun x => x.enrolmentId == eid && x.assessmentId == aid) =
      some { entry with marks := v } := by
  induction ms with
  | nil => simp at h
  | cons head rest ih =>
    rw [List.find?_cons] at h
    unfold updateFirstMark
    by_cases hh : (head.enrolmentId == eid && head.assessmentId == aid) = true
    · rw [if_pos hh]
      rw [hh] at h
      simp only [cond_true, Option.some.injEq] at h
      subst h
      rw [List.find?_cons]
      have : ((⟨head.id, head.enrolmentId, head.assessmentId, v⟩ : Mark).enrolmentId == eid &&
          (⟨head.id, head.enrolmentId, head.assessmentId, v⟩ : Mark).assessmentId == aid) = true := hh
      rw [this]
    · rw [if_neg hh]
      rw [Bool.eq_false_iff.mpr hh] at h
      simp only [cond_false] at h
      rw [List.find?_cons, Bool.eq_false_iff.mpr hh]
      exact ih h

/-- C9: the marks collection holds at most one entry per
(enrolmentId, assessmentId) pair and every successful `upsertMark` call
preserves this invariant; when an entry for the pair exists the call
updates it in place (same keys, same length, the pair now maps to the
entry with the new value), and otherwise it appends exactly one new entry
for the pair. -/
theorem upsert_mark_invariant (s : Store) (eid aid : Nat) (v : ℚ) (nid : Nat)
    (s' : Store) (entry : Mark) (created : Bool)
    (h : upsertMark s ⟨some eid, some aid, some v⟩ nid = Except.ok (s', entry, created)) :
    (marksUniquePerPair s.marks → marksUniquePerPair s'.marks) ∧
    s'.enrolments = s.enrolments ∧
    s'.assessments = s.assessments ∧
    (created = false →
      s'.marks.map markKey = s.marks.map markKey ∧
      s'.marks.length = s.marks.length ∧
      entry.marks = v ∧
      s'.marks.find? (fun x => x.enrolmentId == eid && x.assessmentId == aid) = some entry) ∧
    (created = true →
      (∀ x ∈ s.marks, markKey x ≠ (eid, aid)) ∧
      s'.marks = s.marks ++ [entry] ∧
      markKey entry = (eid, aid) ∧
      entry.marks = v) := by
  unfold upsertMark at h
  simp only at h
  by_cases h1 : (s.enrolments.find? (fun e => e.id == eid)).isNone = true
  · rw [if_pos h1] at h
    exact absurd h (by simp)
  · rw [if_neg h1] at h
    by_cases h2 : (s.assessments.find? (fun a => a.id == aid)).isNone = true
    · rw [if_pos h2] at h
      exact absurd h (by simp)
    · rw [if_neg h2] at h
      cases hfind : s.marks.find? (fun x => x.enrolmentId == eid && x.assessmentId == aid) with
      | some found =>
        rw [hfind] at h
        simp only [Except.ok.injEq, Prod.mk.injEq] at h
        obtain ⟨hs', hentry, hcreated⟩ := h
        subst hs'
        subst hentry
        subst hcreated
        refine ⟨?_, rfl, rfl, ?_, ?_⟩
        · intro hu
          unfold marksUniquePerPair at hu ⊢
          rw [updateFirstMark_map_key]
          exact hu
        · intro _
          refine ⟨updateFirstMark_map_key eid aid v s.marks, ?_, rfl, ?_⟩
          · have := congrArg List.length (updateFirstMark_map_key eid aid v s.marks)
            simpa using this
          · exact updateFirstMark_find? eid aid v s.marks found hfind
        · intro hfalse
          exact absurd hfalse (by simp)
      | none =>
        rw [hfind] at h
        simp only [Except.ok.injEq, Prod.mk.injEq] at h
        obtain ⟨hs', hentry, hcreated⟩ := h
        subst hs'
        subst hentry
        subst hcreated
        have hnot : ∀ x ∈ s.marks, markKey x ≠ (eid, aid) := by
          intro x hx hkey
          have hnp := List.find?_eq_none.mp hfind x hx
          apply hnp
          unfold markKey at hkey
          rw [Prod.mk.injEq] at hkey
          simp [hkey.1, hkey.2]
        refine ⟨?_, rfl, rfl, ?_, ?_⟩
        · intro hu
          unfold marksUniquePerPair at hu ⊢
          rw [List.map_append]
          rw [List.nodup_append]
          refine ⟨hu, by simp, ?_⟩
          intro k hk
          simp only [List.map_cons, List.map_nil, List.mem_singleton]
          intro hk'
          obtain ⟨x, hx, hxk⟩ := List.mem_map.mp hk
          subst hk'
          exact hnot x hx hxk
        · intro habs
          exact absurd habs (by simp)
        · intro _
          exact ⟨hnot, rfl, rfl, rfl⟩

/-- Witness for C9: on a store with no marks, upserting marks 7 for
enrolment 1 and assessment 2 appends exactly the one new entry. -/
theorem upsert_mark_invariant_witness :
    c9StoreAfter.marks = c9Store.marks ++ [c9Entry] :=
  ((upsert_mark_invariant c9Store 1 2 7 5 c9StoreAfter c9Entry true rfl).2.2.2.2 rfl).2.1

theorem getElem?_some_lt {α : Type} (l : List α) (a : Nat) (x : α) (hget : l[a]? = some x) :
    a < l.length := by
  by_contra hn
  rw [List.getElem?_eq_none_iff.mpr (Nat.le_of_not_lt hn)] at hget
  exact Option.noConfusion hget

mutual

theorem reprOfAddr_agree (h h₂ : List HNode) (hag : ∀ x, x < h.length → h₂[x]? = h[x]?) :
    ∀ (a : Nat) (j : JVal), reprOfAddr h a j = true → reprOfAddr h₂ a j = true
  | a, JVal.num q, hc => by
    unfold reprOfAddr at hc ⊢
    simp only [beq_iff_eq] at hc ⊢
    rw [hag a (getElem?_some_lt h a _ hc), hc]
  | a, JVal.str s, hc => by
    unfold reprOfAddr at hc ⊢
    simp only [beq_iff_eq] at hc ⊢
    rw [hag a (getElem?_some_lt h a _ hc), hc]
  | a, JVal.bool b, hc => by
    unfold reprOfAddr at hc ⊢
    simp only [beq_iff_eq] at hc ⊢
    rw [hag a (getElem?_some_lt h a _ hc), hc]
  | a, JVal.null, hc => by
    unfold reprOfAddr at hc ⊢
    simp only [beq_iff_eq] at hc ⊢
    rw [hag a (getElem?_some_lt h a _ hc), hc]
  | a, JVal.arr js, hc => by
    unfold reprOfAddr at hc ⊢
    cases hget : h[a]? with
    | none => rw [hget] at hc; simp at hc
    | some node =>
      rw [hget] at hc
      rw [hag a (getElem?_some_lt h a node hget), hget]
      cases node with
      | arr elems => exact reprOfAddrList_agree h h₂ hag elems js hc
      | num q => simp at hc
      | str s => simp at hc
      | bool b => simp at hc
      | null => simp at hc
      | obj fields => simp at hc
  | a, JVal.obj jfs, hc => by
    unfold reprOfAddr at hc ⊢
    cases hget : h[a]? with
    | none => rw [hget] at hc; simp at hc
    | some node =>
      rw [hget] at hc
      rw [hag a (getElem?_some_lt h a node hget), hget]
      cases node with
      | obj fields => exact reprOfAddrFields_agree h h₂ hag fields jfs hc
      | num q => simp at hc
      | str s => simp at hc
      | bool b => simp at hc
      | null => simp at hc
      | arr elems => simp at hc

theorem reprOfAddrList_agree (h h₂ : List HNode) (hag : ∀ x, x < h.length → h₂[x]? = h[x]?) :
    ∀ (as : List Nat) (js : List JVal), reprOfAddrList h as js = true → reprOfAddrList h₂ as js = true
  | [], [], _ => rfl
  | a :: as, j :: js, hc => by
    unfold reprOfAddrList at hc ⊢
    rw [Bool.and_eq_true] at hc ⊢
    exact ⟨reprOfAddr_agree h h₂ hag a j hc.1, reprOfAddrList_agree h h₂ hag as js hc.2⟩
  | [], _ :: _, hc => by unfold reprOfAddrList at hc; exact absurd hc (by simp)
  | _ :: _, [], hc => by unfold reprOfAddrList at hc; exact absurd hc (by simp)

theorem reprOfAddrFields_agree (h h₂ : List HNode) (hag : ∀ x, x < h.length → h₂[x]? = h[x]?) :
    ∀ (fs : List (String × Nat)) (jfs : List (String × JVal)),
      reprOfAddrFields h fs jfs = true → reprOfAddrFields h₂ fs jfs = true
  | [], [], _ => rfl
  | (k, a) :: fs, (k', j) :: jfs, hc => by
    unfold reprOfAddrFields at hc ⊢
    rw [Bool.and_eq_true, Bool.and_eq_true] at hc ⊢
    exact ⟨⟨hc.1.1, reprOfAddr_agree h h₂ hag a j hc.1.2⟩,
      reprOfAddrFields_agree h h₂ hag fs jfs hc.2⟩
  | [], _ :: _, hc => by unfold reprOfAddrFields at hc; exact absurd hc (by simp)
  | _ :: _, [], hc => by unfold reprOfAddrFields at hc; exact absurd hc (by simp)

end

mutual

theorem cloneVal_spec : ∀ (h : List HNode) (j : JVal),
    (∃ ext, (cloneVal h j).1 = h ++ ext) ∧
    h.length ≤ (cloneVal h j).2 ∧
    reprOfAddr (cloneVal h j).1 (cloneVal h j).2 j = true
  | h, JVal.num q => by
    unfold cloneVal
    refine ⟨⟨[HNode.num q], rfl⟩, le_refl _, ?_⟩
    unfold reprOfAddr
    simp [List.getElem?_concat_length]
  | h, JVal.str s => by
    unfold cloneVal
    refine ⟨⟨[HNode.str s], rfl⟩, le_refl _, ?_⟩
    unfold reprOfAddr
    simp [List.getElem?_concat_length]
  | h, JVal.bool b => by
    unfold cloneVal
    refine ⟨⟨[HNode.bool b], rfl⟩, le_refl _, ?_⟩
    unfold reprOfAddr
    simp [List.getElem?_concat_length]
  | h, JVal.null => by
    unfold cloneVal
    refine ⟨⟨[HNode.null], rfl⟩, le_refl _, ?_⟩
    unfold reprOfAddr
    simp [List.getElem?_concat_length]
  | h, JVal.arr js => by
    obtain ⟨⟨ext, hext⟩, hchk⟩ := cloneList_spec h js
    unfold cloneVal
    dsimp only
    refine ⟨⟨ext ++ [HNode.arr (cloneList h js).2], ?_⟩, ?_, ?_⟩
    · rw [hext, List.append_assoc]
    · rw [hext]
      simp
    · unfold reprOfAddr
      rw [List.getElem?_concat_length]
      apply reprOfAddrList_agree (cloneList h js).1 _ ?_ _ _ hchk
      intro x hx
      exact List.getElem?_append_left hx
  | h, JVal.obj jfs => by
    obtain ⟨⟨ext, hext⟩, hchk⟩ := cloneFields_spec h jfs
    unfold cloneVal
    dsimp only
    refine ⟨⟨ext ++ [HNode.obj (cloneFields h jfs).2], ?_⟩, ?_, ?_⟩
    · rw [hext, List.append_assoc]
    · rw [hext]
      simp
    · unfold reprOfAddr
      rw [List.getElem?_concat_length]
      apply reprOfAddrFields_agree (cloneFields h jfs).1 _ ?_ _ _ hchk
      intro x hx
      exact List.getElem?_append_left hx

theorem cloneList_spec : ∀ (h : List HNode) (js : List JVal),
    (∃ ext, (cloneList h js).1 = h ++ ext) ∧
    reprOfAddrList (cloneList h js).1 (cloneList h js).2 js = true
  | h, [] => by
    unfold cloneList
    exact ⟨⟨[], (List.append_nil h).symm⟩, rfl⟩
  | h, j :: js => by
    obtain ⟨⟨e₁, he₁⟩, _, hchk₁⟩ := cloneVal_spec h j
    obtain ⟨⟨e₂, he₂⟩, hchk₂⟩ := cloneList_spec (cloneVal h j).1 js
    unfold cloneList
    refine ⟨⟨e₁ ++ e₂, ?_⟩, ?_⟩
    · rw [he₂, he₁, List.append_assoc]
    · unfold reprOfAddrList
      rw [Bool.and_eq_true]
      refine ⟨?_, hchk₂⟩
      apply reprOfAddr_agree (cloneVal h j).1 _ ?_ _ _ hchk₁
      intro x hx
      rw [he₂]
      exact List.getElem?_append_left hx

theorem cloneFields_spec : ∀ (h : List HNode) (jfs : List (String × JVal)),
    (∃ ext, (cloneFields h jfs).1 = h ++ ext) ∧
    reprOfAddrFields (cloneFields h jfs).1 (cloneFields h jfs).2 jfs = true
  | h, [] => by
    unfold cloneFields
    exact ⟨⟨[], (List.append_nil h).symm⟩, rfl⟩
  | h, (k, j) :: jfs => by
    obtain ⟨⟨e₁, he₁⟩, _, hchk₁⟩ := cloneVal_spec h j
    obtain ⟨⟨e₂, he₂⟩, hchk₂⟩ := cloneFields_spec (cloneVal h (k, j).2).1 jfs
    unfold cloneFields
    refine ⟨⟨e₁ ++ e₂, ?_⟩, ?_⟩
    · rw [he₂]
      show (cloneVal h j).1 ++ e₂ = h ++ (e₁ ++ e₂)
      rw [he₁, List.append_assoc]
    · unfold reprOfAddrFields
      rw [Bool.and_eq_true, Bool.and_eq_true]
      refine ⟨⟨by simp, ?_⟩, hchk₂⟩
      apply reprOfAddr_agree (cloneVal h j).1 _ ?_ _ _ hchk₁
      intro x hx
      rw [he₂]
      show ((cloneVal h j).1 ++ e₂)[x]? = (cloneVal h j).1[x]?
      exact List.getElem?_append_left hx

end

/-- C10: the heap semantics of `clone` (JSON round trip) used by
`DataStore.getAll` and `DataStore.list`: cloning the JSON value stored at
address `a` only appends fresh nodes to the heap (the store's own nodes
are untouched), the clone's root is a fresh address denoting the same JSON
value, the original address still denotes its value afterwards, and
mutating any address outside the original heap (in particular any node of
the clone) leaves the value denoted by the store's address unchanged. -/
theorem clone_deep_copy (h : List HNode) (a : Nat) (j : JVal) (i : Nat) (n : HNode)
    (hrep : reprOfAddr h a j = true) :
    (∃ ext, (cloneVal h j).1 = h ++ ext) ∧
    h.length ≤ (cloneVal h j).2 ∧
    reprOfAddr (cloneVal h j).1 (cloneVal h j).2 j = true ∧
    reprOfAddr (cloneVal h j).1 a j = true ∧
    (h.length ≤ i → reprOfAddr ((cloneVal h j).1.set i n) a j = true) := by
  obtain ⟨⟨ext, hext⟩, hle, hchk⟩ := cloneVal_spec h j
  refine ⟨⟨ext, hext⟩, hle, hchk, ?_, ?_⟩
  · apply reprOfAddr_agree h _ ?_ a j hrep
    intro x hx
    rw [hext]
    exact List.getElem?_append_left hx
  · intro hi
    apply reprOfAddr_agree h _ ?_ a j hrep
    intro x hx
    have hne : i ≠ x := by omega
    rw [List.getElem?_set_ne hne, hext]
    exact List.getElem?_append_left hx

/-- Witness for C10: cloning the boolean store value at address 0 and then
overwriting the freshly allocated node at address 1 leaves the store's
value at address 0 intact. -/
theorem clone_deep_copy_witness :
    reprOfAddr ((cloneVal c10Heap (JVal.bool true)).1.set 1 (HNode.bool false)) 0 (JVal.bool true) = true :=
  (clone_deep_copy c10Heap 0 (JVal.bool true) 1 (HNode.bool false)
    (by unfold reprOfAddr c10Heap; rfl)).2.2.2.2 (by unfold c10Heap; simp)

end OBE
